import Mathlib

/-!
Verification of the `DLT._predict` forecast engine (src/orbit/dlt.py).

The embedding works per posterior draw: every torch operation in `_predict` is
vectorized across the draw axis and sequential only across time, so a single
draw carries all the structure.  Time series are `List ℚ` (doubles become
exact rationals), dates are `ℤ`, unbounded like Python ints.  The
transcendental functions (`torch.log`, `torch.exp`) and the transforms whose
bodies live outside this repository (`_scale_df`, `_log_transform_df`,
`MinMaxScaler.inverse_transform`) are abstract function fields of the model,
so every formula of the engine stays exact and executable.
-/

/-- Errors `_predict` can surface.  `illegalArgument` and
`predictionException` are the exceptions raised explicitly (dlt.py:285-291);
`keyError` models `pd.Index.get_loc` failing (dlt.py:313); `runtimeError`
models torch runtime failures (ambiguous tensor truthiness at dlt.py:261,
shape mismatches in tensor arithmetic). -/
inductive PredictError where
  | illegalArgument
  | predictionException
  | keyError
  | runtimeError
deriving DecidableEq

/-- Caller dataframe for a prediction call: the date column and the regressor
columns (one row per date). -/
structure PredDF where
  dates : List ℤ
  regressorRows : List (List ℚ)
deriving DecidableEq

/-- One posterior draw of the fitted DLT model plus the scalar configuration
read from `self` in `_predict`.  `dampedFactor` is the per-draw damped factor:
either the broadcast fixed value (dlt.py:240-242) or the posterior draw
(dlt.py:244) — per draw both are a single rational.  `numSample` is the first
axis length of every posterior array.  The function fields abstract external
numerics: `rlog`/`rexp` stand for `torch.log`/`torch.exp`; `logRows` and
`scaleRows` stand for the regressor-value action of `_log_transform_df` and
`_scale_df` (inherited from LGT, not in src/), which transform response and
regressor values and leave the date column unchanged; `invScale` stands for
`response_min_max_scaler.inverse_transform`. -/
structure DLTModel where
  numSample : ℕ
  levelSmoothingFactor : ℚ
  slopeSmoothingFactor : ℚ
  seasonalitySmoothingFactor : ℚ
  localTrendLevels : List ℚ
  localTrendSlopes : List ℚ
  localTrend : List ℚ
  globalTrend : List ℚ
  seasonalityLevels : List ℚ
  globalTrendLevel : ℚ
  globalTrendSlope : ℚ
  dampedFactor : ℚ
  prBeta : Option (List ℚ)
  rrBeta : Option (List ℚ)
  regressorColConfigured : Bool
  numRegularRegressors : ℕ
  seasonality : ℕ
  useLogGlobalTrend : Bool
  isMultiplicative : Bool
  autoScale : Bool
  trainDates : List ℤ
  rlog : ℚ → ℚ
  rexp : ℚ → ℚ
  logRows : List (List ℚ) → List (List ℚ)
  scaleRows : List (List ℚ) → List (List ℚ)
  invScale : List ℚ → List ℚ

/-- Modelled from the spec: `is_ordered_datetime` (imported from
`orbit.utils.utils`, not in src/).  The spec requires the prediction date
sequence to be "strictly increasing, no duplicates" and "ordered and not
repeat", i.e. strictly ascending. -/
def isOrderedDates : List ℤ → Bool
  | [] => true
  | [_] => true
  | a :: b :: t => decide (a < b) && isOrderedDates (b :: t)

/-- `training_df_meta['training_start']`: the first training date. -/
def trainingStart (m : DLTModel) : ℤ := m.trainDates.headD 0

/-- `training_df_meta['training_end']`: the last training date. -/
def trainingEnd (m : DLTModel) : ℤ := m.trainDates.getLastD 0

/-- Size of a Python set built from a list: number of distinct elements. -/
def pySetCard (a : List ℤ) : ℕ := a.dedup.length

/-- Size of `set(a) - set(b)`: distinct elements of `a` not in `b`. -/
def pySetDiffCard (a b : List ℤ) : ℕ :=
  ((a.filter (fun d => decide (d ∉ b))).dedup).length

/-- `n_forecast_steps` (dlt.py:296-311).  If the prediction window starts
after training end, every prediction date is a forecast step; otherwise the
count of prediction dates unseen in training, and — via Python's
`len(...) or -(...)` — the negated count of unmatched training dates when
that count is zero. -/
def nForecastSteps (m : DLTModel) (predDates : List ℤ) : ℤ :=
  if trainingEnd m < predDates.headD 0 then (pySetCard predDates : ℤ)
  else if pySetDiffCard predDates m.trainDates ≠ 0 then
    (pySetDiffCard predDates m.trainDates : ℤ)
  else -(pySetDiffCard m.trainDates predDates : ℤ)

/-- Position of a date in a (unique) date index: the semantics of
`pd.Index(...).get_loc` on the strictly-increasing training index. -/
def indexOfDate : List ℤ → ℤ → Option ℕ
  | [], _ => none
  | a :: t, x => if a = x then some 0 else (indexOfDate t x).map (· + 1)

/-- `start` (dlt.py:298-314): `trained_len` for a fully-future window,
otherwise `pd.Index(training dates).get_loc(prediction_start)`, which raises
(`keyError`) when the start date is not a training date. -/
def startIndex (m : DLTModel) (predDates : List ℤ) : Except PredictError ℕ :=
  if trainingEnd m < predDates.headD 0 then .ok m.trainDates.length
  else
    match indexOfDate m.trainDates (predDates.headD 0) with
    | some i => .ok i
    | none => .error .keyError

/-- The merge of positive and regular regressor betas (dlt.py:254-261).
`pr_beta or rr_beta` evaluates Python truthiness of `pr_beta` when it is a
tensor: ambiguous (RuntimeError) unless it has exactly one element, in which
case truthy iff that element is nonzero. -/
def betaCombine (m : DLTModel) : Except PredictError (Option (List ℚ)) :=
  match m.prBeta, m.rrBeta with
  | some p, some r => .ok (some (p ++ r))
  | none, b => .ok b
  | some p, none =>
    if m.numSample * p.length ≠ 1 then .error .runtimeError
    else if p.headD 0 ≠ 0 then .ok (some p) else .ok none

/-- Dot product of two rational vectors. -/
def dot (xs ys : List ℚ) : ℚ := (List.zipWith (· * ·) xs ys).sum

/-- Regression component (dlt.py:322-331), one draw.  The matmul branch runs
only when regressor columns are configured AND at least one regular
(unconstrained) regressor exists; otherwise zeros of the output length.
`runtimeError` models torch failing on a `None` beta or a shape mismatch. -/
def regressionComponent (m : DLTModel) (rows : List (List ℚ))
    (beta? : Option (List ℚ)) (outputLen : ℕ) : Except PredictError (List ℚ) :=
  if m.regressorColConfigured = true ∧ 0 < m.numRegularRegressors then
    match beta? with
    | none => .error .runtimeError
    | some β =>
      if rows.all (fun r => decide (r.length = β.length)) then
        .ok (rows.map (fun r => dot r β))
      else .error .runtimeError
  else .ok (List.replicate outputLen 0)

/-- Seasonality component before the loop (dlt.py:337-348): historical
seasonality draws sliced to `full_len`, zero-padded past their stored length,
or all zeros when seasonality is disabled. -/
def seasonalityInit (m : DLTModel) (fullLenN : ℕ) : List ℚ :=
  if 1 < m.seasonality then
    if fullLenN ≤ m.seasonalityLevels.length then m.seasonalityLevels.take fullLenN
    else m.seasonalityLevels ++ List.replicate (fullLenN - m.seasonalityLevels.length) 0
  else List.replicate fullLenN 0

/-- Working state of the recursive forecast loop: the three tensors being
filled plus the carried level and slope. -/
structure LoopState where
  fullLocalTrend : List ℚ
  fullGlobalTrend : List ℚ
  seasonality : List ℚ
  lastLevel : ℚ
  lastSlope : ℚ
deriving DecidableEq

/-- `curr_local_trend` (dlt.py:370-371): the damped local contribution
`last_level + damped_factor * last_slope`, computed before any noise. -/
def currLocal (m : DLTModel) (s : LoopState) : ℚ :=
  s.lastLevel + m.dampedFactor * s.lastSlope

/-- The local-trend tensor after one iteration writes index `idx`
(dlt.py:372 and 385-397): the damped contribution is stored at `idx` and,
when error injection is requested, the noise draw is added in place. -/
def stepLocalTensor (m : DLTModel) (includeError : Bool) (noise : ℕ → ℚ)
    (s : LoopState) (idx : ℕ) : List ℚ :=
  let flt0 := s.fullLocalTrend.set idx (currLocal m s)
  if includeError then flt0.set idx (flt0.getD idx 0 + noise idx) else flt0

/-- The global-trend value written at index `idx` (dlt.py:378-383). -/
def stepGlobalValue (m : DLTModel) (idx : ℕ) : ℚ :=
  if m.useLogGlobalTrend then
    m.globalTrendLevel + m.rlog (1 + m.globalTrendSlope * (idx : ℚ))
  else m.globalTrendLevel + m.globalTrendSlope * ((idx : ℚ) - 1)

/-- `new_local_trend_level` (dlt.py:401-403): smoothing of the realized
(noise-inclusive) tensor value toward the pre-noise `curr_local_trend`. -/
def stepNewLevel (m : DLTModel) (includeError : Bool) (noise : ℕ → ℚ)
    (s : LoopState) (idx : ℕ) : ℚ :=
  m.levelSmoothingFactor * (stepLocalTensor m includeError noise s idx).getD idx 0
    + (1 - m.levelSmoothingFactor) * currLocal m s

/-- The slope update (dlt.py:404-406). -/
def stepNewSlope (m : DLTModel) (includeError : Bool) (noise : ℕ → ℚ)
    (s : LoopState) (idx : ℕ) : ℚ :=
  m.slopeSmoothingFactor * (stepNewLevel m includeError noise s idx - s.lastLevel)
    + (1 - m.slopeSmoothingFactor) * m.dampedFactor * s.lastSlope

/-- The seasonality tensor after the write-ahead update (dlt.py:408-414). -/
def stepSeasonality (m : DLTModel) (includeError : Bool) (noise : ℕ → ℚ)
    (fullLenN : ℕ) (s : LoopState) (idx : ℕ) : List ℚ :=
  if 1 < m.seasonality ∧ idx + m.seasonality < fullLenN then
    s.seasonality.set (idx + m.seasonality)
      (m.seasonalitySmoothingFactor
          * ((stepLocalTensor m includeError noise s idx).getD idx 0
              + s.seasonality.getD idx 0 - stepNewLevel m includeError noise s idx)
        + (1 - m.seasonalitySmoothingFactor) * s.seasonality.getD idx 0)
  else s.seasonality

/-- One iteration of the forecast loop (dlt.py:368-416) at time index `idx`:
damped local contribution stored at `idx`, global trend written at `idx`,
optional noise added in place, level and slope smoothing updates, and the
write-ahead seasonality update at `idx + seasonality`. -/
def loopStep (m : DLTModel) (includeError : Bool) (noise : ℕ → ℚ)
    (fullLenN : ℕ) (s : LoopState) (idx : ℕ) : LoopState :=
  { fullLocalTrend := stepLocalTensor m includeError noise s idx
    fullGlobalTrend := s.fullGlobalTrend.set idx (stepGlobalValue m idx)
    seasonality := stepSeasonality m includeError noise fullLenN s idx
    lastLevel := stepNewLevel m includeError noise s idx
    lastSlope := stepNewSlope m includeError noise s idx }

/-- Loop initialisation for the out-of-sample branch (dlt.py:360-366):
historical trend tensors zero-padded to full length, seeds taken from the
last historical level and slope. -/
def initLoop (m : DLTModel) (fullLenN : ℕ) (seaInit : List ℚ) : LoopState :=
  { fullLocalTrend := m.localTrend.take fullLenN
      ++ List.replicate (fullLenN - m.trainDates.length) 0
    fullGlobalTrend := m.globalTrend.take fullLenN
      ++ List.replicate (fullLenN - m.trainDates.length) 0
    seasonality := seaInit
    lastLevel := m.localTrendLevels.getLastD 0
    lastSlope := m.localTrendSlopes.getLastD 0 }

/-- The loop state after the first `k` iterations of the forecast loop (the
`for idx in range(trained_len, full_len)` loop runs the indices
`trained_len, trained_len+1, …`). -/
def stateAfter (m : DLTModel) (includeError : Bool) (noise : ℕ → ℚ)
    (fullLenN : ℕ) (seaInit : List ℚ) (k : ℕ) : LoopState :=
  (List.range' m.trainDates.length k).foldl
    (loopStep m includeError noise fullLenN) (initLoop m fullLenN seaInit)

/-- Trend (and loop-updated seasonality) tensors (dlt.py:356-416): pure
slicing when `full_len <= trained_len`, otherwise the recursive forecast loop
over `range(trained_len, full_len)`. -/
def trendTensors (m : DLTModel) (includeError : Bool) (noise : ℕ → ℚ)
    (fullLen : ℤ) (seaInit : List ℚ) : LoopState :=
  if fullLen ≤ (m.trainDates.length : ℤ) then
    { fullLocalTrend := m.localTrend.take fullLen.toNat
      fullGlobalTrend := m.globalTrend.take fullLen.toNat
      seasonality := seaInit
      lastLevel := 0
      lastSlope := 0 }
  else
    stateAfter m includeError noise fullLen.toNat seaInit
      (fullLen.toNat - m.trainDates.length)

/-- Torch broadcast addition along the time axis: equal lengths add
elementwise, a length-1 tensor broadcasts, anything else is a shape error. -/
def bcAdd (a b : List ℚ) : Option (List ℚ) :=
  if a.length = b.length then some (List.zipWith (· + ·) a b)
  else if a.length = 1 then some (b.map (fun x => a.headD 0 + x))
  else if b.length = 1 then some (a.map (fun x => x + b.headD 0))
  else none

/-- The regressor rows `_predict` actually uses: the caller's rows after the
auto-scale and multiplicative log transforms (dlt.py:270-275), which act on
values, not dates. -/
def effectiveRows (m : DLTModel) (df : PredDF) : List (List ℚ) :=
  let r1 := if m.autoScale then m.scaleRows df.regressorRows else df.regressorRows
  if m.isMultiplicative then m.logRows r1 else r1

/-- Everything `_predict` computes for one draw. -/
structure PredictOutput where
  horizon : ℤ
  startIdx : ℕ
  fullLen : ℤ
  fullLocalTrend : List ℚ
  fullGlobalTrend : List ℚ
  seasonalityComponent : List ℚ
  regressorComponent : List ℚ
  prediction : List ℚ
deriving DecidableEq

/-- The body of `_predict` after date validation (dlt.py:293-462, one draw):
sizing, regression, seasonality, trend tensors, slicing at `start` and the
left-associated component sum, then the multiplicative / auto-scale output
transforms. -/
def predictCore (m : DLTModel) (df : PredDF) (includeError : Bool)
    (noise : ℕ → ℚ) (beta? : Option (List ℚ)) (start : ℕ) :
    Except PredictError PredictOutput :=
  let n := nForecastSteps m df.dates
  let fullLen : ℤ := (m.trainDates.length : ℤ) + n
  match regressionComponent m (effectiveRows m df) beta? df.dates.length with
  | .error e => .error e
  | .ok reg =>
    let st := trendTensors m includeError noise fullLen (seasonalityInit m fullLen.toNat)
    match bcAdd (st.fullGlobalTrend.drop start) (st.fullLocalTrend.drop start) with
    | none => .error .runtimeError
    | some trendComp =>
      match bcAdd trendComp (st.seasonality.drop start) with
      | none => .error .runtimeError
      | some ts =>
        match bcAdd ts reg with
        | none => .error .runtimeError
        | some predArr =>
          let p1 := if m.isMultiplicative then predArr.map m.rexp else predArr
          let p2 := if m.autoScale then m.invScale p1 else p1
          .ok { horizon := n
                startIdx := start
                fullLen := fullLen
                fullLocalTrend := st.fullLocalTrend
                fullGlobalTrend := st.fullGlobalTrend
                seasonalityComponent := st.seasonality
                regressorComponent := reg
                prediction := p2 }

/-- `_predict` for one draw: beta merge (dlt.py:254-261), date-ordering check
(dlt.py:285), prediction-range check (dlt.py:290), start lookup, then the
core computation. -/
def predict (m : DLTModel) (df : PredDF) (includeError : Bool)
    (noise : ℕ → ℚ) : Except PredictError PredictOutput :=
  match betaCombine m with
  | .error e => .error e
  | .ok beta? =>
    if isOrderedDates df.dates = false then .error .illegalArgument
    else if df.dates.headD 0 < trainingStart m then .error .predictionException
    else
      match startIndex m df.dates with
      | .error e => .error e
      | .ok start => predictCore m df includeError noise beta? start

/-- `model = deepcopy(self._posterior_state)` (dlt.py:207), modelled with an
explicit object store: the deep copy allocates a fresh posterior object at
index `store.length`; every subsequent read and write of the call targets the
copy, never the stored posterior at `ref`. -/
def posteriorDeepcopy (store : List (List ℚ)) (ref : ℕ) : List (List ℚ) × ℕ :=
  (store ++ [store.getD ref []], store.length)

/-- Modelled from the spec: the regressor-value action of `_scale_df`
(inherited from LGT, not in src/); it rescales response and regressor values
and leaves the date column unchanged. -/
def scaleDfModel (m : DLTModel) (df : PredDF) : PredDF :=
  ⟨df.dates, m.scaleRows df.regressorRows⟩

/-- Modelled from the spec: the regressor-value action of `_log_transform_df`
(inherited from LGT, not in src/); it log-transforms response and regressor
values and leaves the date column unchanged. -/
def logDfModel (m : DLTModel) (df : PredDF) : PredDF :=
  ⟨df.dates, m.logRows df.regressorRows⟩

/-- The dataframe handling at the top of `_predict` (dlt.py:269-275) over an
explicit object store: `df = df.copy()` allocates a fresh frame at index
`store.length`, and the auto-scale and multiplicative log transforms are
applied to that fresh frame (modelled as in-place updates of its slot — the
worst case for the caller), never to the caller's frame at `ref`. -/
def dfPipeline (m : DLTModel) (store : List PredDF) (ref : ℕ) : List PredDF × ℕ :=
  let store1 := store ++ [store.getD ref ⟨[], []⟩]
  let newRef := store.length
  let store2 :=
    if m.autoScale then store1.set newRef (scaleDfModel m (store1.getD newRef ⟨[], []⟩))
    else store1
  let store3 :=
    if m.isMultiplicative then store2.set newRef (logDfModel m (store2.getD newRef ⟨[], []⟩))
    else store2
  (store3, newRef)

/-- A small fitted model used by concrete witnesses: two training points,
no seasonality, no regressors, additive mode. -/
def cmBase : DLTModel :=
  { numSample := 1
    levelSmoothingFactor := 1/2
    slopeSmoothingFactor := 1/3
    seasonalitySmoothingFactor := 1/4
    localTrendLevels := [5, 7]
    localTrendSlopes := [1, 1]
    localTrend := [10, 20]
    globalTrend := [1, 2]
    seasonalityLevels := [2, 3]
    globalTrendLevel := 3
    globalTrendSlope := 2
    dampedFactor := 4/5
    prBeta := none
    rrBeta := none
    regressorColConfigured := false
    numRegularRegressors := 0
    seasonality := 0
    useLogGlobalTrend := false
    isMultiplicative := false
    autoScale := false
    trainDates := [0, 1]
    rlog := id
    rexp := id
    logRows := id
    scaleRows := id
    invScale := id }

/-- Three training points, used by the sizing counterexamples. -/
def cmThree : DLTModel :=
  { cmBase with
    trainDates := [0, 1, 2]
    localTrend := [10, 20, 30]
    globalTrend := [1, 2, 3]
    seasonalityLevels := [2, 3, 4]
    localTrendLevels := [5, 6, 7]
    localTrendSlopes := [1, 1, 1] }

/-- Five training points, used by the in-sample slicing counterexample. -/
def cmFive : DLTModel :=
  { cmBase with
    trainDates := [0, 1, 2, 3, 4]
    localTrend := [10, 20, 30, 40, 50]
    globalTrend := [1, 2, 3, 4, 5]
    seasonalityLevels := [2, 3, 4, 5, 6]
    localTrendLevels := [5, 6, 7, 8, 9]
    localTrendSlopes := [1, 1, 1, 1, 1] }

/-- A model with a seasonality period of 2, used by the seasonality witness. -/
def cmSea : DLTModel := { cmBase with seasonality := 2 }

/-- A model configured with a single positive-sign regressor and no regular
regressor: `regressor_col = ['x']`, `regressor_sign = ['+']`, one posterior
sample whose positive beta draw is 2. -/
def cmPos : DLTModel :=
  { cmThree with
    prBeta := some [2]
    rrBeta := none
    regressorColConfigured := true
    numRegularRegressors := 0 }

/-- The same positive-only-regressor configuration with two posterior
samples, so the positive beta tensor has more than one element. -/
def cmPosTwo : DLTModel := { cmPos with numSample := 2 }

/-- The per-step trend recursion property of the forecast loop at iteration
`k` (time index `trained_len + k`): the damped local contribution is stored
at `t` (plus the optional noise draw), the level is smoothed toward the
pre-noise damped value, the slope update uses the damped previous slope, and
both are carried into the next step's state. -/
def trendUpdateProp (m : DLTModel) (includeError : Bool) (noise : ℕ → ℚ)
    (fullLenN : ℕ) (seaInit : List ℚ) (k : ℕ) : Prop :=
  (stateAfter m includeError noise fullLenN seaInit (k + 1)).fullLocalTrend.getD
      (m.trainDates.length + k) 0
    = ((stateAfter m includeError noise fullLenN seaInit k).lastLevel
        + m.dampedFactor * (stateAfter m includeError noise fullLenN seaInit k).lastSlope)
      + (if includeError then noise (m.trainDates.length + k) else 0)
  ∧ (stateAfter m includeError noise fullLenN seaInit (k + 1)).lastLevel
    = m.levelSmoothingFactor
        * (stateAfter m includeError noise fullLenN seaInit (k + 1)).fullLocalTrend.getD
            (m.trainDates.length + k) 0
      + (1 - m.levelSmoothingFactor)
        * ((stateAfter m includeError noise fullLenN seaInit k).lastLevel
            + m.dampedFactor * (stateAfter m includeError noise fullLenN seaInit k).lastSlope)
  ∧ (stateAfter m includeError noise fullLenN seaInit (k + 1)).lastSlope
    = m.slopeSmoothingFactor
        * ((stateAfter m includeError noise fullLenN seaInit (k + 1)).lastLevel
            - (stateAfter m includeError noise fullLenN seaInit k).lastLevel)
      + (1 - m.slopeSmoothingFactor) * m.dampedFactor
        * (stateAfter m includeError noise fullLenN seaInit k).lastSlope

/-- The write-ahead seasonality property at iteration `k` (time index
`t = trained_len + k`): the value one period ahead is the smoothing
combination of the level residual at `t` and the seasonality at `t`, and the
two smoothing weights sum to 1. -/
def seasonalityWriteProp (m : DLTModel) (includeError : Bool) (noise : ℕ → ℚ)
    (fullLenN : ℕ) (seaInit : List ℚ) (k : ℕ) : Prop :=
  (stateAfter m includeError noise fullLenN seaInit (k + 1)).seasonality.getD
      (m.trainDates.length + k + m.seasonality) 0
    = m.seasonalitySmoothingFactor
        * ((stateAfter m includeError noise fullLenN seaInit (k + 1)).fullLocalTrend.getD
              (m.trainDates.length + k) 0
            + (stateAfter m includeError noise fullLenN seaInit (k + 1)).seasonality.getD
                (m.trainDates.length + k) 0
            - (stateAfter m includeError noise fullLenN seaInit (k + 1)).lastLevel)
      + (1 - m.seasonalitySmoothingFactor)
        * (stateAfter m includeError noise fullLenN seaInit (k + 1)).seasonality.getD
            (m.trainDates.length + k) 0
  ∧ m.seasonalitySmoothingFactor + (1 - m.seasonalitySmoothingFactor) = 1

/-- The global-trend property at iteration `k` (time index
`t = trained_len + k`): the written value is the per-draw constant level plus
the deterministic function of `t` selected by the log-global-trend flag. -/
def globalTrendProp (m : DLTModel) (includeError : Bool) (noise : ℕ → ℚ)
    (fullLenN : ℕ) (seaInit : List ℚ) (k : ℕ) : Prop :=
  (stateAfter m includeError noise fullLenN seaInit (k + 1)).fullGlobalTrend.getD
      (m.trainDates.length + k) 0
    = if m.useLogGlobalTrend then
        m.globalTrendLevel
          + m.rlog (1 + m.globalTrendSlope * ((m.trainDates.length + k : ℕ) : ℚ))
      else
        m.globalTrendLevel
          + m.globalTrendSlope * (((m.trainDates.length + k : ℕ) : ℚ) - 1)

/-- The horizon-resolver property: for a fully-future window the horizon is
the number of distinct prediction dates and the start offset the training
length; otherwise the horizon is the count of prediction dates unseen in
training, negated unmatched-training count when that is zero, and the start
offset is a position of the prediction start within the training index. -/
def horizonResolverProp (m : DLTModel) (predDates : List ℤ) : Prop :=
  (trainingEnd m < predDates.headD 0 →
    nForecastSteps m predDates = (predDates.toFinset.card : ℤ)
    ∧ startIndex m predDates = .ok m.trainDates.length)
  ∧ (¬ trainingEnd m < predDates.headD 0 →
      nForecastSteps m predDates
        = (if (predDates.toFinset \ m.trainDates.toFinset).card ≠ 0 then
            ((predDates.toFinset \ m.trainDates.toFinset).card : ℤ)
          else -((m.trainDates.toFinset \ predDates.toFinset).card : ℤ))
      ∧ (predDates.headD 0 ∈ m.trainDates →
          ∃ i, startIndex m predDates = .ok i
            ∧ m.trainDates[i]? = some (predDates.headD 0)))

/-- The error-surface property: the call fails with `IllegalArgument` exactly
when the prediction dates are not strictly increasing (checked first), and —
given ordered dates — fails with `PredictionException` exactly when the
prediction start precedes the training start. -/
def errorOrderProp (m : DLTModel) (df : PredDF) (includeError : Bool)
    (noise : ℕ → ℚ) : Prop :=
  (predict m df includeError noise = .error .illegalArgument
    ↔ isOrderedDates df.dates = false)
  ∧ (isOrderedDates df.dates = true →
      (predict m df includeError noise = .error .predictionException
        ↔ df.dates.headD 0 < trainingStart m))

/-- The corrected sizing property: the combined working length equals
`trained_len + n_forecast_steps` as a signed sum (no clamping at zero), and
the built local-trend tensor has exactly that many entries. -/
def sizingProp (m : DLTModel) (df : PredDF) (includeError : Bool)
    (noise : ℕ → ℚ) : Prop :=
  (predict m df includeError noise).map PredictOutput.fullLen
    = (predict m df includeError noise).map
        (fun o => (m.trainDates.length : ℤ) + o.horizon)
  ∧ (predict m df includeError noise).map (fun o => o.fullLocalTrend.length)
    = (predict m df includeError noise).map (fun o => o.fullLen.toNat)

/-- The corrected in-sample property for prefix windows: requesting the first
`k` training dates (0 < k < trained_len) yields a negative horizon, an
untouched sliced local-trend tensor (the loop never runs), an output of the
requested length, and the output is exactly the stored historical trend plus
seasonality plus the recomputed regression for those rows. -/
def prefixWindowProp (m : DLTModel) (df : PredDF) (noise : ℕ → ℚ) (k : ℕ)
    (reg : List ℚ) : Prop :=
  (predict m df false noise).map PredictOutput.horizon
    = .ok ((k : ℤ) - m.trainDates.length)
  ∧ (k : ℤ) - m.trainDates.length < 0
  ∧ (predict m df false noise).map PredictOutput.fullLocalTrend
    = .ok (m.localTrend.take k)
  ∧ (predict m df false noise).map (fun o => o.prediction.length) = .ok df.dates.length
  ∧ (predict m df false noise).map PredictOutput.prediction
    = .ok (List.zipWith (· + ·)
        (List.zipWith (· + ·)
          (List.zipWith (· + ·) (m.globalTrend.take k) (m.localTrend.take k))
          (seasonalityInit m k))
        reg)

/-- The determinism-and-isolation property: with `include_error=False` the
prediction is independent of the noise source (so two calls with identical
inputs agree bit for bit), and the deep copy isolates the stored posterior
from the call. -/
def noiseFreeProp (m : DLTModel) (df : PredDF) (n1 n2 : ℕ → ℚ)
    (store : List (List ℚ)) (ref : ℕ) : Prop :=
  predict m df false n1 = predict m df false n2
  ∧ (posteriorDeepcopy store ref).1[ref]? = store[ref]?

theorem range'_snoc (s n : ℕ) : List.range' s (n + 1) = List.range' s n ++ [s + n] := by
  induction n generalizing s with
  | zero => simp [List.range']
  | succ n ih =>
    rw [List.range'_succ, ih (s + 1), List.range'_succ]
    simp
    omega

theorem getD_set_self (l : List ℚ) (i : ℕ) (a d : ℚ) (h : i < l.length) :
    (l.set i a).getD i d = a := by
  simp [List.getD_eq_getElem?_getD, List.getElem?_set_self, h]

theorem getD_set_ne (l : List ℚ) {i j : ℕ} (a d : ℚ) (h : i ≠ j) :
    (l.set i a).getD j d = l.getD j d := by
  simp [List.getD_eq_getElem?_getD, List.getElem?_set_ne h]

theorem stateAfter_zero (m : DLTModel) (ie : Bool) (noise : ℕ → ℚ)
    (fullLenN : ℕ) (seaInit : List ℚ) :
    stateAfter m ie noise fullLenN seaInit 0 = initLoop m fullLenN seaInit := rfl

theorem stateAfter_succ (m : DLTModel) (ie : Bool) (noise : ℕ → ℚ)
    (fullLenN : ℕ) (seaInit : List ℚ) (k : ℕ) :
    stateAfter m ie noise fullLenN seaInit (k + 1)
      = loopStep m ie noise fullLenN (stateAfter m ie noise fullLenN seaInit k)
          (m.trainDates.length + k) := by
  unfold stateAfter
  rw [range'_snoc, List.foldl_append]
  simp

theorem stepLocalTensor_length (m : DLTModel) (ie : Bool) (noise : ℕ → ℚ)
    (s : LoopState) (idx : ℕ) :
    (stepLocalTensor m ie noise s idx).length = s.fullLocalTrend.length := by
  unfold stepLocalTensor
  split <;> simp

theorem stepSeasonality_length (m : DLTModel) (ie : Bool) (noise : ℕ → ℚ)
    (fullLenN : ℕ) (s : LoopState) (idx : ℕ) :
    (stepSeasonality m ie noise fullLenN s idx).length = s.seasonality.length := by
  unfold stepSeasonality
  split <;> simp

theorem stateAfter_localLen (m : DLTModel) (ie : Bool) (noise : ℕ → ℚ)
    (fullLenN : ℕ) (seaInit : List ℚ) (k : ℕ) :
    (stateAfter m ie noise fullLenN seaInit k).fullLocalTrend.length
      = (initLoop m fullLenN seaInit).fullLocalTrend.length := by
  induction k with
  | zero => rfl
  | succ k ih =>
    rw [stateAfter_succ]
    show (stepLocalTensor _ _ _ _ _).length = _
    rw [stepLocalTensor_length]
    exact ih

theorem stateAfter_globalLen (m : DLTModel) (ie : Bool) (noise : ℕ → ℚ)
    (fullLenN : ℕ) (seaInit : List ℚ) (k : ℕ) :
    (stateAfter m ie noise fullLenN seaInit k).fullGlobalTrend.length
      = (initLoop m fullLenN seaInit).fullGlobalTrend.length := by
  induction k with
  | zero => rfl
  | succ k ih =>
    rw [stateAfter_succ]
    show (List.set _ _ _).length = _
    rw [List.length_set]
    exact ih

theorem stateAfter_seaLen (m : DLTModel) (ie : Bool) (noise : ℕ → ℚ)
    (fullLenN : ℕ) (seaInit : List ℚ) (k : ℕ) :
    (stateAfter m ie noise fullLenN seaInit k).seasonality.length = seaInit.length := by
  induction k with
  | zero => rfl
  | succ k ih =>
    rw [stateAfter_succ]
    show (stepSeasonality _ _ _ _ _ _).length = _
    rw [stepSeasonality_length]
    exact ih

theorem initLoop_localLen (m : DLTModel) (fullLenN : ℕ) (seaInit : List ℚ)
    (hlt : m.localTrend.length = m.trainDates.length)
    (hle : m.trainDates.length ≤ fullLenN) :
    (initLoop m fullLenN seaInit).fullLocalTrend.length = fullLenN := by
  simp [initLoop, hlt]
  omega

theorem initLoop_globalLen (m : DLTModel) (fullLenN : ℕ) (seaInit : List ℚ)
    (hgt : m.globalTrend.length = m.trainDates.length)
    (hle : m.trainDates.length ≤ fullLenN) :
    (initLoop m fullLenN seaInit).fullGlobalTrend.length = fullLenN := by
  simp [initLoop, hgt]
  omega

theorem seasonalityInit_length (m : DLTModel) (fullLenN : ℕ) :
    (seasonalityInit m fullLenN).length = fullLenN := by
  unfold seasonalityInit
  split
  · split
    · simp
      omega
    · simp
      omega
  · simp

theorem loopStep_local_proj (m : DLTModel) (ie : Bool) (noise : ℕ → ℚ)
    (fullLenN : ℕ) (s : LoopState) (idx : ℕ) :
    (loopStep m ie noise fullLenN s idx).fullLocalTrend
      = stepLocalTensor m ie noise s idx := rfl

theorem loopStep_global_proj (m : DLTModel) (ie : Bool) (noise : ℕ → ℚ)
    (fullLenN : ℕ) (s : LoopState) (idx : ℕ) :
    (loopStep m ie noise fullLenN s idx).fullGlobalTrend
      = s.fullGlobalTrend.set idx (stepGlobalValue m idx) := rfl

theorem loopStep_sea_proj (m : DLTModel) (ie : Bool) (noise : ℕ → ℚ)
    (fullLenN : ℕ) (s : LoopState) (idx : ℕ) :
    (loopStep m ie noise fullLenN s idx).seasonality
      = stepSeasonality m ie noise fullLenN s idx := rfl

theorem loopStep_level_proj (m : DLTModel) (ie : Bool) (noise : ℕ → ℚ)
    (fullLenN : ℕ) (s : LoopState) (idx : ℕ) :
    (loopStep m ie noise fullLenN s idx).lastLevel
      = stepNewLevel m ie noise s idx := rfl

/-- C1: for each forecast step `t` from `training_length` to
`combined_length − 1`, the engine computes `local = last_level +
damped_factor * last_slope`, stores it (plus optional noise) into the
local-trend tensor at `t`, updates `new_level = level_smoothing_factor *
local_trend[t] + (1 − level_smoothing_factor) * local` with the pre-noise
`local` as previous-level proxy, updates `new_slope = slope_smoothing_factor
* (new_level − last_level) + (1 − slope_smoothing_factor) * damped_factor *
last_slope`, and carries `(new_level, new_slope)` to the next step. -/
theorem dlt_forecast_step_updates (m : DLTModel) (ie : Bool) (noise : ℕ → ℚ)
    (fullLenN : ℕ) (seaInit : List ℚ) (k : ℕ)
    (hlt : m.localTrend.length = m.trainDates.length)
    (hk : m.trainDates.length + k < fullLenN) :
    trendUpdateProp m ie noise fullLenN seaInit k := by
  have hlen : (stateAfter m ie noise fullLenN seaInit k).fullLocalTrend.length
      = fullLenN := by
    rw [stateAfter_localLen, initLoop_localLen m fullLenN seaInit hlt (by omega)]
  unfold trendUpdateProp
  rw [stateAfter_succ]
  refine ⟨?_, ?_, ?_⟩
  · show (stepLocalTensor m ie noise _ _).getD _ 0 = _
    unfold stepLocalTensor
    cases ie with
    | false =>
      simp only [Bool.false_eq_true, if_false, if_neg]
      rw [getD_set_self _ _ _ _ (by rw [hlen]; exact hk)]
      simp [currLocal]
    | true =>
      simp only [if_true]
      rw [getD_set_self _ _ _ _ (by simp [hlen]; exact hk),
        getD_set_self _ _ _ _ (by rw [hlen]; exact hk)]
      simp [currLocal]
  · show stepNewLevel m ie noise _ _ = _
    unfold stepNewLevel currLocal
    rfl
  · show stepNewSlope m ie noise _ _ = _
    unfold stepNewSlope
    rfl

/-- C7: for each forecast index `t`, the global trend value written by the
loop is `global_trend_level + log(1 + global_trend_slope * t)` in
log-global-trend mode and `global_trend_level + global_trend_slope * (t − 1)`
otherwise, the level and slope being per-draw constants. -/
theorem global_trend_formula (m : DLTModel) (ie : Bool) (noise : ℕ → ℚ)
    (fullLenN : ℕ) (seaInit : List ℚ) (k : ℕ)
    (hgt : m.globalTrend.length = m.trainDates.length)
    (hk : m.trainDates.length + k < fullLenN) :
    globalTrendProp m ie noise fullLenN seaInit k := by
  have hlen : (stateAfter m ie noise fullLenN seaInit k).fullGlobalTrend.length
      = fullLenN := by
    rw [stateAfter_globalLen, initLoop_globalLen m fullLenN seaInit hgt (by omega)]
  unfold globalTrendProp
  rw [stateAfter_succ]
  show (List.set _ _ _).getD _ 0 = _
  rw [getD_set_self _ _ _ _ (by rw [hlen]; exact hk)]
  rfl

/-- C4: whenever seasonality is enabled and `t + period < combined_length`,
the loop writes `seasonality[t + period] = seasonality_smoothing_factor *
(local_trend[t] + seasonality[t] − new_level) + (1 −
seasonality_smoothing_factor) * seasonality[t]`, a combination of the level
residual and the seasonality at `t` whose weights sum to 1. -/
theorem seasonality_write_ahead (m : DLTModel) (ie : Bool) (noise : ℕ → ℚ)
    (fullLenN : ℕ) (seaInit : List ℚ) (k : ℕ)
    (hs : seaInit.length = fullLenN)
    (hsea : 1 < m.seasonality)
    (hks : m.trainDates.length + k + m.seasonality < fullLenN) :
    seasonalityWriteProp m ie noise fullLenN seaInit k := by
  have hlen : (stateAfter m ie noise fullLenN seaInit k).seasonality.length
      = fullLenN := by
    rw [stateAfter_seaLen]
    exact hs
  unfold seasonalityWriteProp
  rw [stateAfter_succ]
  simp only [loopStep_sea_proj, loopStep_local_proj, loopStep_level_proj]
  have hread : (stepSeasonality m ie noise fullLenN
        (stateAfter m ie noise fullLenN seaInit k) (m.trainDates.length + k)).getD
          (m.trainDates.length + k) 0
      = (stateAfter m ie noise fullLenN seaInit k).seasonality.getD
          (m.trainDates.length + k) 0 := by
    unfold stepSeasonality
    rw [if_pos ⟨hsea, hks⟩]
    exact getD_set_ne _ _ _ (by omega)
  constructor
  · rw [hread]
    conv_lhs => unfold stepSeasonality
    rw [if_pos ⟨hsea, hks⟩, getD_set_self _ _ _ _ (by rw [hlen]; omega)]
  · ring

theorem loopStep_no_noise (m : DLTModel) (n1 n2 : ℕ → ℚ) (fullLenN : ℕ)
    (s : LoopState) (idx : ℕ) :
    loopStep m false n1 fullLenN s idx = loopStep m false n2 fullLenN s idx := rfl

theorem stateAfter_no_noise (m : DLTModel) (n1 n2 : ℕ → ℚ) (fullLenN : ℕ)
    (seaInit : List ℚ) (k : ℕ) :
    stateAfter m false n1 fullLenN seaInit k
      = stateAfter m false n2 fullLenN seaInit k := by
  induction k with
  | zero => rfl
  | succ k ih => rw [stateAfter_succ, stateAfter_succ, ih, loopStep_no_noise]

theorem trendTensors_no_noise (m : DLTModel) (n1 n2 : ℕ → ℚ) (fullLen : ℤ)
    (seaInit : List ℚ) :
    trendTensors m false n1 fullLen seaInit
      = trendTensors m false n2 fullLen seaInit := by
  unfold trendTensors
  split
  · rfl
  · exact stateAfter_no_noise m n1 n2 _ seaInit _

theorem predictCore_no_noise (m : DLTModel) (df : PredDF) (n1 n2 : ℕ → ℚ)
    (beta? : Option (List ℚ)) (start : ℕ) :
    predictCore m df false n1 beta? start = predictCore m df false n2 beta? start := by
  unfold predictCore
  simp only [trendTensors_no_noise m n1 n2]

/-- C8: with `include_error=False` the prediction is a pure function of the
model and the dataframe — the noise source is never consulted, so two calls
with identical inputs are bit-identical — and the deep copy taken of the
posterior store leaves the stored posterior draws unchanged. -/
theorem predict_noise_free_deterministic (m : DLTModel) (df : PredDF)
    (n1 n2 : ℕ → ℚ) (store : List (List ℚ)) (ref : ℕ)
    (h : ref < store.length) :
    noiseFreeProp m df n1 n2 store ref := by
  constructor
  · unfold predict
    simp only [predictCore_no_noise m df n1 n2]
  · unfold posteriorDeepcopy
    simp only [List.getElem?_append, h, if_pos]

/-- C10: the caller's dataframe is left unchanged by a prediction call: the
copy made at dlt.py:270 is the only frame the auto-scale and multiplicative
log transforms touch. -/
theorem caller_df_untouched (m : DLTModel) (store : List PredDF) (ref : ℕ)
    (h : ref < store.length) :
    (dfPipeline m store ref).1[ref]? = store[ref]? := by
  have hne : store.length ≠ ref := by omega
  unfold dfPipeline
  by_cases ha : m.autoScale <;> by_cases hm : m.isMultiplicative <;>
    simp [ha, hm, List.getElem?_set_ne hne, List.getElem?_append, h]

theorem pySetCard_toFinset (a : List ℤ) : pySetCard a = a.toFinset.card := by
  rw [pySetCard, List.card_toFinset]

theorem filter_not_mem_toFinset (a b : List ℤ) :
    (a.filter (fun d => decide (d ∉ b))).toFinset = a.toFinset \ b.toFinset := by
  ext x
  simp [List.mem_filter]

theorem pySetDiffCard_toFinset (a b : List ℤ) :
    pySetDiffCard a b = (a.toFinset \ b.toFinset).card := by
  rw [pySetDiffCard, ← List.card_toFinset, filter_not_mem_toFinset]

theorem indexOfDate_mem (l : List ℤ) (x : ℤ) (h : x ∈ l) :
    ∃ i, indexOfDate l x = some i ∧ l[i]? = some x := by
  induction l with
  | nil => cases h
  | cons a t ih =>
    by_cases hax : a = x
    · exact ⟨0, by simp [indexOfDate, hax], by simp [hax]⟩
    · have hxt : x ∈ t := by
        cases List.mem_cons.mp h with
        | inl h' => exact absurd h'.symm hax
        | inr h' => exact h'
      obtain ⟨i, hfi, hgi⟩ := ih hxt
      exact ⟨i + 1, by simp [indexOfDate, hax, hfi], by simpa using hgi⟩

/-- C5: the horizon resolver.  For a fully-future window the horizon is the
number of distinct prediction dates and the start offset the training
length; otherwise the horizon is `|prediction − training|` set difference, or
its negated counterpart `−|training − prediction|` when the former is empty,
and the start offset is the position of the prediction start inside the
training date index. -/
theorem horizon_resolver_cases (m : DLTModel) (predDates : List ℤ) :
    horizonResolverProp m predDates := by
  unfold horizonResolverProp
  constructor
  · intro hf
    unfold nForecastSteps startIndex
    rw [if_pos hf, if_pos hf, pySetCard_toFinset]
    exact ⟨rfl, rfl⟩
  · intro hf
    constructor
    · unfold nForecastSteps
      rw [if_neg hf]
      simp only [← pySetDiffCard_toFinset]
    · intro hmem
      unfold startIndex
      rw [if_neg hf]
      obtain ⟨i, hfi, hgi⟩ := indexOfDate_mem _ _ hmem
      exact ⟨i, by rw [hfi], hgi⟩

theorem regressionComponent_err (m : DLTModel) (rows : List (List ℚ))
    (b : Option (List ℚ)) (k : ℕ) (e : PredictError)
    (h : regressionComponent m rows b k = .error e) : e = .runtimeError := by
  unfold regressionComponent at h
  split at h
  · split at h
    · simp only [Except.error.injEq] at h
      exact h.symm
    · split at h
      · simp at h
      · simp only [Except.error.injEq] at h
        exact h.symm
  · simp at h

theorem startIndex_err (m : DLTModel) (predDates : List ℤ) (e : PredictError)
    (h : startIndex m predDates = .error e) : e = .keyError := by
  unfold startIndex at h
  split at h
  · simp at h
  · split at h
    · simp at h
    · simp only [Except.error.injEq] at h
      exact h.symm

theorem predictCore_err (m : DLTModel) (df : PredDF) (ie : Bool)
    (noise : ℕ → ℚ) (b : Option (List ℚ)) (start : ℕ) (e : PredictError)
    (h : predictCore m df ie noise b start = .error e) : e = .runtimeError := by
  simp only [predictCore] at h
  split at h
  · simp only [Except.error.injEq] at h
    rw [← h]
    exact regressionComponent_err _ _ _ _ _ (by assumption)
  · split at h
    · simp only [Except.error.injEq] at h
      exact h.symm
    · split at h
      · simp only [Except.error.injEq] at h
        exact h.symm
      · split at h
        · simp only [Except.error.injEq] at h
          exact h.symm
        · simp at h

theorem predict_cases (m : DLTModel) (df : PredDF) (ie : Bool) (noise : ℕ → ℚ)
    (b : Option (List ℚ)) (hb : betaCombine m = .ok b) :
    predict m df ie noise
      = if isOrderedDates df.dates = false then .error .illegalArgument
        else if df.dates.headD 0 < trainingStart m then .error .predictionException
        else
          match startIndex m df.dates with
          | .error e => .error e
          | .ok start => predictCore m df ie noise b start := by
  unfold predict
  rw [hb]

/-- C9: the prediction call raises `IllegalArgument` iff the prediction date
array is not strictly increasing, and — the ordering check having passed —
raises `PredictionException` iff the prediction start precedes the training
start; the ordering check comes first. -/
theorem error_surface_order (m : DLTModel) (df : PredDF) (ie : Bool)
    (noise : ℕ → ℚ) (b : Option (List ℚ)) (hb : betaCombine m = .ok b)
    (_hne : df.dates ≠ []) : errorOrderProp m df ie noise := by
  have hp := predict_cases m df ie noise b hb
  unfold errorOrderProp
  constructor
  · constructor
    · intro h
      by_contra hcon
      have hord : ¬ isOrderedDates df.dates = false := by
        simpa using hcon
      rw [hp, if_neg hord] at h
      by_cases hr : df.dates.headD 0 < trainingStart m
      · rw [if_pos hr] at h
        simp at h
      · rw [if_neg hr] at h
        cases hs : startIndex m df.dates with
        | error e =>
          rw [hs] at h
          simp only [Except.error.injEq] at h
          have := startIndex_err m df.dates e hs
          rw [this] at h
          cases h
        | ok start =>
          rw [hs] at h
          have := predictCore_err m df ie noise b start _ h
          cases this
    · intro h
      rw [hp, if_pos h]
  · intro hord
    constructor
    · intro h
      rw [hp, if_neg (by simp [hord])] at h
      by_cases hr : df.dates.headD 0 < trainingStart m
      · exact hr
      · exfalso
        rw [if_neg hr] at h
        cases hs : startIndex m df.dates with
        | error e =>
          rw [hs] at h
          simp only [Except.error.injEq] at h
          have := startIndex_err m df.dates e hs
          rw [this] at h
          cases h
        | ok start =>
          rw [hs] at h
          have := predictCore_err m df ie noise b start _ h
          cases this
    · intro hr
      rw [hp, if_neg (by simp [hord]), if_pos hr]

theorem trendTensors_localLen (m : DLTModel) (ie : Bool) (noise : ℕ → ℚ)
    (fullLen : ℤ) (seaInit : List ℚ)
    (hlt : m.localTrend.length = m.trainDates.length) :
    (trendTensors m ie noise fullLen seaInit).fullLocalTrend.length
      = fullLen.toNat := by
  unfold trendTensors
  split
  next hle =>
    show (m.localTrend.take fullLen.toNat).length = _
    rw [List.length_take, hlt]
    omega
  next hgt =>
    rw [stateAfter_localLen, initLoop_localLen m _ _ hlt (by omega)]

theorem predictCore_sizing (m : DLTModel) (df : PredDF) (ie : Bool)
    (noise : ℕ → ℚ) (b : Option (List ℚ)) (start : ℕ)
    (hlt : m.localTrend.length = m.trainDates.length) :
    (predictCore m df ie noise b start).map PredictOutput.fullLen
      = (predictCore m df ie noise b start).map
          (fun o => (m.trainDates.length : ℤ) + o.horizon)
    ∧ (predictCore m df ie noise b start).map (fun o => o.fullLocalTrend.length)
      = (predictCore m df ie noise b start).map (fun o => o.fullLen.toNat) := by
  simp only [predictCore]
  constructor <;>
  · split
    · rfl
    · split
      · rfl
      · split
        · rfl
        · split
          · rfl
          · simp [Except.map, trendTensors_localLen m ie noise _ _ hlt]

/-- C2 (amended): the combined working length used to size and slice the
component tensors equals `training_length + forecast_horizon` as a signed
sum, with no clamping at zero — for a negative horizon it is strictly
smaller than the training length — and the built local-trend tensor has
exactly that many entries. -/
theorem sizing_signed_sum (m : DLTModel) (df : PredDF) (ie : Bool)
    (noise : ℕ → ℚ) (hlt : m.localTrend.length = m.trainDates.length) :
    sizingProp m df ie noise := by
  unfold sizingProp
  cases hb : betaCombine m with
  | error e =>
    unfold predict
    rw [hb]
    exact ⟨rfl, rfl⟩
  | ok b =>
    rw [predict_cases m df ie noise b hb]
    by_cases h1 : isOrderedDates df.dates = false
    · rw [if_pos h1]
      exact ⟨rfl, rfl⟩
    · rw [if_neg h1]
      by_cases h2 : df.dates.headD 0 < trainingStart m
      · rw [if_pos h2]
        exact ⟨rfl, rfl⟩
      · rw [if_neg h2]
        cases hs : startIndex m df.dates with
        | error e => exact ⟨rfl, rfl⟩
        | ok start => exact predictCore_sizing m df ie noise b start hlt

/-- C2 counterexample: with three training dates and a two-date in-sample
window the horizon is −1 and the combined working length is 2, not
`training_length + max(horizon, 0) = 3`. -/
theorem sizing_no_clamp_cex :
    (predict cmThree ⟨[0, 1], []⟩ false (fun _ => 0)).map
        (fun o => (o.horizon, o.fullLen, o.fullLocalTrend.length))
      = .ok (-1, 2, 2)
    ∧ ¬ ((2 : ℤ) = (cmThree.trainDates.length : ℤ) + max (-1) 0) := by
  constructor
  · rfl
  · decide

/-- C3 counterexample: the in-sample window `[1, 2, 3]` strictly inside the
five training dates has horizon −2, but the call fails with a torch shape
error (the trimmed trend slice has 2 entries against a regression component
of 3), so the output neither has the requested length nor reproduces the
stored historical components. -/
theorem insample_window_cex :
    predict cmFive ⟨[1, 2, 3], []⟩ false (fun _ => 0) = .error .runtimeError
    ∧ nForecastSteps cmFive [1, 2, 3] = -2 := by
  constructor
  · rfl
  · rfl

/-- C6: with only positive-constrained regressors configured the prediction
ignores them — the posterior beta merges to the positive draw `[2]` and the
claimed draw-wise product of the prediction rows with it is `[2, 2]`, yet the
code returns an all-zero regression component because the matmul branch
requires a regular regressor; with more than one beta element the call even
fails on the ambiguous tensor truthiness of `pr_beta or rr_beta`. -/
theorem positive_only_regressors_dropped :
    betaCombine cmPos = .ok (some [2])
    ∧ (predict cmPos ⟨[3, 4], [[1], [1]]⟩ false (fun _ => 0)).map
        PredictOutput.regressorComponent = .ok [0, 0]
    ∧ [[(1 : ℚ)], [1]].map (fun r => dot r [2]) = [2, 2]
    ∧ predict cmPosTwo ⟨[3, 4], [[1], [1]]⟩ false (fun _ => 0)
        = .error .runtimeError := by
  refine ⟨rfl, rfl, by norm_num [dot], rfl⟩

theorem isOrderedDates_chain : ∀ l : List ℤ, isOrderedDates l = true → l.Chain' (· < ·)
  | [], _ => List.chain'_nil
  | [_], _ => List.chain'_singleton _
  | a :: b :: t, h => by
    have h' : a < b ∧ isOrderedDates (b :: t) = true := by
      simpa [isOrderedDates] using h
    exact List.chain'_cons.mpr ⟨h'.1, isOrderedDates_chain (b :: t) h'.2⟩

theorem orderedDates_nodup (l : List ℤ) (h : isOrderedDates l = true) : l.Nodup :=
  (List.chain'_iff_pairwise.mp (isOrderedDates_chain l h)).imp ne_of_lt

theorem ordered_head_le_last : ∀ l : List ℤ, isOrderedDates l = true →
    l.headD 0 ≤ l.getLastD 0
  | [], _ => le_refl _
  | [_], _ => le_refl _
  | a :: b :: t, h => by
    have h' : a < b ∧ isOrderedDates (b :: t) = true := by
      simpa [isOrderedDates] using h
    have ih := ordered_head_le_last (b :: t) h'.2
    calc (a :: b :: t).headD 0 = a := rfl
      _ ≤ b := le_of_lt h'.1
      _ ≤ (b :: t).getLastD 0 := ih
      _ = (a :: b :: t).getLastD 0 := by simp [List.getLastD_cons]

theorem headD_take (l : List ℤ) (k : ℕ) (hk : 0 < k) :
    (l.take k).headD 0 = l.headD 0 := by
  cases l with
  | nil => simp
  | cons a t =>
    cases k with
    | zero => omega
    | succ k => rfl

theorem indexOfDate_head (l : List ℤ) (hne : l ≠ []) :
    indexOfDate l (l.headD 0) = some 0 := by
  cases l with
  | nil => exact absurd rfl hne
  | cons a t => simp [indexOfDate]

theorem pySetDiffCard_subset (a b : List ℤ) (h : ∀ x ∈ a, x ∈ b) :
    pySetDiffCard a b = 0 := by
  unfold pySetDiffCard
  have hf : a.filter (fun d => decide (d ∉ b)) = [] :=
    List.filter_eq_nil_iff.mpr (fun x hx => by simpa using h x hx)
  rw [hf]
  rfl

theorem filter_split (l : List ℤ) (k : ℕ) (P : ℤ → Bool)
    (h1 : ∀ x ∈ l.take k, P x = false) (h2 : ∀ x ∈ l.drop k, P x = true) :
    l.filter P = l.drop k := by
  conv_lhs => rw [← List.take_append_drop k l]
  rw [List.filter_append, List.filter_eq_nil_iff.mpr (fun x hx => by simp [h1 x hx]),
    List.filter_eq_self.mpr h2, List.nil_append]

theorem filter_not_take (l : List ℤ) (k : ℕ) (h : l.Nodup) :
    l.filter (fun d => decide (d ∉ l.take k)) = l.drop k := by
  have hnd := h
  rw [← List.take_append_drop k l, List.nodup_append] at hnd
  obtain ⟨_, _, hdisj⟩ := hnd
  refine filter_split l k _ (fun x hx => by simp [hx]) (fun x hx => ?_)
  simp only [decide_eq_true_eq]
  exact fun hmem => hdisj.symm hx hmem

theorem pySetDiffCard_take (l : List ℤ) (k : ℕ) (h : l.Nodup) :
    pySetDiffCard l (l.take k) = l.length - k := by
  unfold pySetDiffCard
  rw [filter_not_take l k h, List.Nodup.dedup (h.sublist (List.drop_sublist k l)),
    List.length_drop]

theorem chain_isOrderedDates : ∀ l : List ℤ, l.Chain' (· < ·) → isOrderedDates l = true
  | [], _ => rfl
  | [_], _ => rfl
  | a :: b :: t, h => by
    have h' := List.chain'_cons.mp h
    simp only [isOrderedDates, Bool.and_eq_true, decide_eq_true_eq]
    exact ⟨h'.1, chain_isOrderedDates (b :: t) h'.2⟩

theorem isOrderedDates_take (l : List ℤ) (k : ℕ) (h : isOrderedDates l = true) :
    isOrderedDates (l.take k) = true :=
  chain_isOrderedDates _ (List.Chain'.take (isOrderedDates_chain l h) k)

/-- C3 (amended): for a prediction window that is a proper prefix of the
training window (the first `k` of `trained_len` training dates, with
`0 < k < trained_len`), the forecast horizon is negative, the recursive loop
never runs (the local-trend tensor is the untouched historical slice), the
output has the requested window length, and the output equals the stored
historical trend plus seasonality plus the recomputed regression for those
rows.  For non-prefix in-sample windows the trimmed tensors are cut at
`trained_len + horizon` and no longer correspond to the requested rows (see
the counterexample). -/
theorem prefix_window_reconstruction (m : DLTModel) (df : PredDF)
    (noise : ℕ → ℚ) (k : ℕ) (b : Option (List ℚ)) (reg : List ℚ)
    (hord : isOrderedDates m.trainDates = true)
    (hlt : m.localTrend.length = m.trainDates.length)
    (hgt : m.globalTrend.length = m.trainDates.length)
    (hdates : df.dates = m.trainDates.take k)
    (hk0 : 0 < k) (hklt : k < m.trainDates.length)
    (hb : betaCombine m = .ok b)
    (hreg : regressionComponent m (effectiveRows m df) b df.dates.length = .ok reg)
    (hreglen : reg.length = k)
    (hmul : m.isMultiplicative = false)
    (hsc : m.autoScale = false) :
    prefixWindowProp m df noise k reg := by
  have hTne : m.trainDates ≠ [] := by
    intro hnil
    rw [hnil] at hklt
    simp at hklt
  have hhead : df.dates.headD 0 = m.trainDates.headD 0 := by
    rw [hdates]
    exact headD_take _ _ hk0
  have hordP : isOrderedDates df.dates = true := by
    rw [hdates]
    exact isOrderedDates_take _ _ hord
  have hnotlt : ¬ (df.dates.headD 0 < trainingStart m) := by
    rw [hhead]
    exact lt_irrefl _
  have hnotfut : ¬ (trainingEnd m < df.dates.headD 0) := by
    rw [hhead]
    exact not_lt.mpr (ordered_head_le_last _ hord)
  have hstart : startIndex m df.dates = .ok 0 := by
    unfold startIndex
    rw [if_neg hnotfut, hhead, indexOfDate_head _ hTne]
  have hnodup := orderedDates_nodup _ hord
  have hn : nForecastSteps m df.dates = -((m.trainDates.length - k : ℕ) : ℤ) := by
    unfold nForecastSteps
    have h0 : pySetDiffCard df.dates m.trainDates = 0 := by
      rw [hdates]
      exact pySetDiffCard_subset _ _ (fun x hx => List.take_subset k _ hx)
    rw [if_neg hnotfut, if_neg (by simp [h0]), hdates, pySetDiffCard_take _ _ hnodup]
  have hfull : (m.trainDates.length : ℤ) + nForecastSteps m df.dates = (k : ℤ) := by
    rw [hn]
    omega
  have hlen1 : (m.globalTrend.take k).length = k := by
    rw [List.length_take, hgt]
    omega
  have hlen2 : (m.localTrend.take k).length = k := by
    rw [List.length_take, hlt]
    omega
  have hbc1 : bcAdd (m.globalTrend.take k) (m.localTrend.take k)
      = some (List.zipWith (· + ·) (m.globalTrend.take k) (m.localTrend.take k)) := by
    unfold bcAdd
    rw [if_pos (by rw [hlen1, hlen2])]
  have hz1 : (List.zipWith (· + ·) (m.globalTrend.take k) (m.localTrend.take k)).length
      = k := by
    rw [List.length_zipWith, hlen1, hlen2]
    omega
  have hbc2 : bcAdd (List.zipWith (· + ·) (m.globalTrend.take k) (m.localTrend.take k))
        (seasonalityInit m k)
      = some (List.zipWith (· + ·)
          (List.zipWith (· + ·) (m.globalTrend.take k) (m.localTrend.take k))
          (seasonalityInit m k)) := by
    unfold bcAdd
    rw [if_pos (by rw [hz1, seasonalityInit_length])]
  have hz2 : (List.zipWith (· + ·)
        (List.zipWith (· + ·) (m.globalTrend.take k) (m.localTrend.take k))
        (seasonalityInit m k)).length = k := by
    rw [List.length_zipWith, hz1, seasonalityInit_length]
    omega
  have hbc3 : bcAdd (List.zipWith (· + ·)
        (List.zipWith (· + ·) (m.globalTrend.take k) (m.localTrend.take k))
        (seasonalityInit m k)) reg
      = some (List.zipWith (· + ·)
          (List.zipWith (· + ·)
            (List.zipWith (· + ·) (m.globalTrend.take k) (m.localTrend.take k))
            (seasonalityInit m k)) reg) := by
    unfold bcAdd
    rw [if_pos (by rw [hz2, hreglen])]
  have htt : trendTensors m false noise
        ((m.trainDates.length : ℤ) + nForecastSteps m df.dates)
        (seasonalityInit m ((m.trainDates.length : ℤ) + nForecastSteps m df.dates).toNat)
      = { fullLocalTrend := m.localTrend.take k
          fullGlobalTrend := m.globalTrend.take k
          seasonality := seasonalityInit m k
          lastLevel := 0
          lastSlope := 0 } := by
    rw [hfull]
    unfold trendTensors
    rw [if_pos (by exact_mod_cast hklt.le)]
    simp [Int.toNat_natCast]
  have hdlen : df.dates.length = k := by
    rw [hdates, List.length_take]
    omega
  unfold prefixWindowProp
  rw [predict_cases m df false noise b hb, if_neg (by simp [hordP]), if_neg hnotlt,
    hstart]
  simp only [predictCore, hreg, htt, List.drop_zero, hbc1, hbc2, hbc3, hmul, hsc,
    Bool.false_eq_true, if_false, Except.map]
  refine ⟨by rw [hn]; congr 1; omega, by omega, by trivial, ?_, by trivial⟩
  simp only [Except.ok.injEq, List.length_zipWith, hz2, hreglen, hdlen]
  omega

theorem dlt_forecast_step_updates_check :
    cmBase.localTrend.length = cmBase.trainDates.length
    ∧ cmBase.trainDates.length + 0 < 3
    ∧ trendUpdateProp cmBase true (fun _ => 1) 3 [0, 0, 0] 0 :=
  ⟨by decide, by decide,
    dlt_forecast_step_updates cmBase true (fun _ => 1) 3 [0, 0, 0] 0
      (by decide) (by decide)⟩

theorem global_trend_formula_check :
    cmBase.globalTrend.length = cmBase.trainDates.length
    ∧ cmBase.trainDates.length + 0 < 3
    ∧ globalTrendProp cmBase false (fun _ => 0) 3 [0, 0, 0] 0 :=
  ⟨by decide, by decide,
    global_trend_formula cmBase false (fun _ => 0) 3 [0, 0, 0] 0
      (by decide) (by decide)⟩

theorem seasonality_write_ahead_check :
    ([(0 : ℚ), 0, 0, 0, 0] : List ℚ).length = 5
    ∧ 1 < cmSea.seasonality
    ∧ cmSea.trainDates.length + 0 + cmSea.seasonality < 5
    ∧ seasonalityWriteProp cmSea true (fun _ => 1) 5 [0, 0, 0, 0, 0] 0 :=
  ⟨by decide, by decide, by decide,
    seasonality_write_ahead cmSea true (fun _ => 1) 5 [0, 0, 0, 0, 0] 0
      (by decide) (by decide) (by decide)⟩

theorem sizing_signed_sum_check :
    cmThree.localTrend.length = cmThree.trainDates.length
    ∧ sizingProp cmThree ⟨[0, 1], []⟩ false (fun _ => 0) :=
  ⟨by decide, sizing_signed_sum cmThree ⟨[0, 1], []⟩ false (fun _ => 0) (by decide)⟩

theorem prefix_window_reconstruction_check :
    isOrderedDates cmThree.trainDates = true
    ∧ cmThree.localTrend.length = cmThree.trainDates.length
    ∧ cmThree.globalTrend.length = cmThree.trainDates.length
    ∧ (PredDF.mk [0] []).dates = cmThree.trainDates.take 1
    ∧ 0 < 1
    ∧ 1 < cmThree.trainDates.length
    ∧ betaCombine cmThree = .ok none
    ∧ regressionComponent cmThree (effectiveRows cmThree ⟨[0], []⟩) none
        (PredDF.mk [0] []).dates.length = .ok [0]
    ∧ ([(0 : ℚ)] : List ℚ).length = 1
    ∧ cmThree.isMultiplicative = false
    ∧ cmThree.autoScale = false
    ∧ prefixWindowProp cmThree ⟨[0], []⟩ (fun _ => 0) 1 [0] :=
  ⟨by decide, by decide, by decide, by decide, by decide, by decide, rfl,
    rfl, by decide, by decide, by decide,
    prefix_window_reconstruction cmThree ⟨[0], []⟩ (fun _ => 0) 1 none [0]
      (by decide) (by decide) (by decide) (by decide) (by decide) (by decide)
      rfl rfl (by decide) (by decide) (by decide)⟩

theorem predict_noise_free_deterministic_check :
    0 < ([[(1 : ℚ), 2]] : List (List ℚ)).length
    ∧ noiseFreeProp cmBase ⟨[5, 6], []⟩ (fun _ => 1) (fun _ => 2) [[1, 2]] 0 :=
  ⟨by decide,
    predict_noise_free_deterministic cmBase ⟨[5, 6], []⟩ (fun _ => 1) (fun _ => 2)
      [[1, 2]] 0 (by decide)⟩

theorem error_surface_order_check :
    betaCombine cmThree = .ok none
    ∧ (PredDF.mk [1, 0] []).dates ≠ []
    ∧ errorOrderProp cmThree ⟨[1, 0], []⟩ false (fun _ => 0) :=
  ⟨rfl, by decide,
    error_surface_order cmThree ⟨[1, 0], []⟩ false (fun _ => 0) none
      rfl (by decide)⟩

theorem caller_df_untouched_check :
    0 < ([PredDF.mk [9] [[1]]] : List PredDF).length
    ∧ (dfPipeline cmBase [PredDF.mk [9] [[1]]] 0).1[0]?
        = ([PredDF.mk [9] [[1]]] : List PredDF)[0]? :=
  ⟨by decide, caller_df_untouched cmBase [PredDF.mk [9] [[1]]] 0 (by decide)⟩
